import Mathlib

/-!
# go-github: repository "immutable releases" endpoints

A shallow embedding of `github/repos_immutable_releases.go`.

The three endpoint methods are embedded statement by statement.  The shared
client (`Client.NewRequest`, `Client.Do`) is defined outside that file, so it is
a parameter: an arbitrary pair of state transformers over a transport state
`σ`.  Every call that a method makes on the client is recorded in a log,
so that statements about "how many requests" and "which request" can be made.

Go values are modelled as follows:

* a pointer that may be `nil` is an `Option`;
* a Go result tuple `(a, b, err)` is a Lean tuple, with `err : Option Err`
  (`none` is Go's `nil` error);
* the destination argument `v any` of `Do` is either `nil` (`none`) or the
  address of the local variable `status` (`some cell`, where `cell` is the
  current content of the variable); the content of the variable after the call
  is the field `written` of the result of `Do`.
-/

namespace GoGithub

/-! ## Data model -/

/-- The Go struct `RepoImmutableReleasesStatus`: two `*bool` fields. -/
structure RepoImmutableReleasesStatus where
  Enabled : Option Bool
  EnforcedByOwner : Option Bool
deriving DecidableEq, Repr

/-- The value `Do` hands back: `(resp, err)` and the content of the destination
variable after the call (meaningful only when the destination was not `nil`). -/
structure DoResult (Resp Err : Type) where
  resp : Option Resp
  err : Option Err
  written : Option RepoImmutableReleasesStatus
deriving DecidableEq

/-- The shared client: `NewRequest(method, urlStr, body)` and `Do(ctx, req, v)`,
both arbitrary functions of the transport state. -/
structure Client (σ Ctx Body Req Resp Err : Type) where
  NewRequest : String → String → Option Body → σ → (Option Req × Option Err) × σ
  Do : Ctx → Option Req → Option (Option RepoImmutableReleasesStatus) → σ →
    DoResult Resp Err × σ

/-- One call made on the client. -/
inductive Call (Ctx Body Req : Type) where
  | newRequest (method urlStr : String) (body : Option Body)
  | doCall (ctx : Ctx) (req : Option Req) (v : Option (Option RepoImmutableReleasesStatus))
deriving DecidableEq

/-- The state a method runs in: the transport state and the log of client calls. -/
structure World (σ Ctx Body Req : Type) where
  transport : σ
  log : List (Call Ctx Body Req)
deriving DecidableEq

/-- The Go struct `RepositoriesService` (a `service`): it only holds the client. -/
structure RepositoriesService (σ Ctx Body Req Resp Err : Type) where
  client : Client σ Ctx Body Req Resp Err

section Methods

variable {σ Ctx Body Req Resp Err : Type}

/-- The call `c.NewRequest(method, urlStr, body)`, recorded in the log. -/
def Client.callNewRequest (c : Client σ Ctx Body Req Resp Err) (method urlStr : String)
    (body : Option Body) (w : World σ Ctx Body Req) :
    (Option Req × Option Err) × World σ Ctx Body Req :=
  ((c.NewRequest method urlStr body w.transport).1,
    ⟨(c.NewRequest method urlStr body w.transport).2,
      w.log ++ [Call.newRequest method urlStr body]⟩)

/-- The call `c.Do(ctx, req, v)`, recorded in the log. -/
def Client.callDo (c : Client σ Ctx Body Req Resp Err) (ctx : Ctx) (req : Option Req)
    (v : Option (Option RepoImmutableReleasesStatus)) (w : World σ Ctx Body Req) :
    DoResult Resp Err × World σ Ctx Body Req :=
  ((c.Do ctx req v w.transport).1,
    ⟨(c.Do ctx req v w.transport).2, w.log ++ [Call.doCall ctx req v]⟩)

/-- The part of `fmt.Sprintf` used here: the verb `%v` applied to string
operands prints the operand unchanged; every other character of the format is
copied. -/
def Sprintf.go : List Char → List String → List Char
  | [], _ => []
  | '%' :: 'v' :: cs, a :: as => a.data ++ Sprintf.go cs as
  | c :: cs, as => c :: Sprintf.go cs as

/-- The function `fmt.Sprintf(format, args...)` for `%v` and string operands. -/
def Sprintf (format : String) (args : List String) : String :=
  ⟨Sprintf.go format.data args⟩

/-- The method `RepositoriesService.EnableImmutableReleases`. -/
def EnableImmutableReleases (s : RepositoriesService σ Ctx Body Req Resp Err) (ctx : Ctx)
    (owner repo : String) (w : World σ Ctx Body Req) :
    (Option Resp × Option Err) × World σ Ctx Body Req :=
  let u := Sprintf "repos/%v/%v/immutable-releases" [owner, repo]
  let r := s.client.callNewRequest "PUT" u none w
  match r.1.2 with
  | some err => ((none, some err), r.2)
  | none =>
    let d := s.client.callDo ctx r.1.1 none r.2
    match d.1.err with
    | some err => ((d.1.resp, some err), d.2)
    | none => ((d.1.resp, none), d.2)

/-- The method `RepositoriesService.DisableImmutableReleases`. -/
def DisableImmutableReleases (s : RepositoriesService σ Ctx Body Req Resp Err) (ctx : Ctx)
    (owner repo : String) (w : World σ Ctx Body Req) :
    (Option Resp × Option Err) × World σ Ctx Body Req :=
  let u := Sprintf "repos/%v/%v/immutable-releases" [owner, repo]
  let r := s.client.callNewRequest "DELETE" u none w
  match r.1.2 with
  | some err => ((none, some err), r.2)
  | none =>
    let d := s.client.callDo ctx r.1.1 none r.2
    match d.1.err with
    | some err => ((d.1.resp, some err), d.2)
    | none => ((d.1.resp, none), d.2)

/-- The method `RepositoriesService.AreImmutableReleasesEnabled`.  The local
variable `status` starts as `nil`; its address is the destination of `Do`. -/
def AreImmutableReleasesEnabled (s : RepositoriesService σ Ctx Body Req Resp Err) (ctx : Ctx)
    (owner repo : String) (w : World σ Ctx Body Req) :
    (Option RepoImmutableReleasesStatus × Option Resp × Option Err) × World σ Ctx Body Req :=
  let u := Sprintf "repos/%v/%v/immutable-releases" [owner, repo]
  let r := s.client.callNewRequest "GET" u none w
  match r.1.2 with
  | some err => ((none, none, some err), r.2)
  | none =>
    let status : Option RepoImmutableReleasesStatus := none
    let d := s.client.callDo ctx r.1.1 (some status) r.2
    match d.1.err with
    | some err => ((none, d.1.resp, some err), d.2)
    | none => ((d.1.written, d.1.resp, none), d.2)

end Methods

/-! ## Counting the calls of a log -/

/-- Is this log entry a call of `NewRequest`? -/
def Call.isNewRequest {Ctx Body Req : Type} : Call Ctx Body Req → Bool
  | Call.newRequest _ _ _ => true
  | Call.doCall _ _ _ => false

/-- Is this log entry a call of `Do`? -/
def Call.isDo {Ctx Body Req : Type} : Call Ctx Body Req → Bool
  | Call.newRequest _ _ _ => false
  | Call.doCall _ _ _ => true

/-- The entries a method adds to the log: `NewRequest(method, urlStr, nil)`, and
`Do(ctx, req, v)` when `NewRequest` returned no error. -/
def callsOf {σ Ctx Body Req Resp Err : Type} (c : Client σ Ctx Body Req Resp Err) (ctx : Ctx)
    (method urlStr : String) (v : Option (Option RepoImmutableReleasesStatus)) (t : σ) :
    List (Call Ctx Body Req) :=
  Call.newRequest method urlStr none ::
    (if (c.NewRequest method urlStr none t).1.2.isSome then []
     else [Call.doCall ctx (c.NewRequest method urlStr none t).1.1 v])

/-- The transport state after `NewRequest(method, urlStr, nil)` and, when that
returned no error, `Do(ctx, req, v)`. -/
def transportAfter {σ Ctx Body Req Resp Err : Type} (c : Client σ Ctx Body Req Resp Err)
    (ctx : Ctx) (method urlStr : String) (v : Option (Option RepoImmutableReleasesStatus))
    (t : σ) : σ :=
  if (c.NewRequest method urlStr none t).1.2.isSome then (c.NewRequest method urlStr none t).2
  else (c.Do ctx (c.NewRequest method urlStr none t).1.1 v (c.NewRequest method urlStr none t).2).2

/-! ## Request construction, modelled from the specification -/

/-- A request descriptor: verb, resolved URL and encoded body. -/
structure Request (URL Bytes : Type) where
  method : String
  url : URL
  body : Option Bytes
deriving DecidableEq

/-- Modelled from the spec: the taxonomy of errors, "(a) request-construction
error, (b) transport error, (c) API error carrying the status code, (d) decode
error". -/
inductive Error where
  | requestConstruction
  | transport
  | api (status : Nat)
  | decode
deriving DecidableEq

/-- Modelled from the spec: `Client.NewRequest(verb, relativePath, body)`, which
is defined outside `repos_immutable_releases.go`.  The spec: it returns a
request handle or an error, and "fails on malformed path/body encoding".  Which
relative URLs are malformed, and the URL a well-formed one resolves to, is the
parameter `parse`; the encoding of a body is the parameter `encode`.  The URL is
parsed first, a nil body is not encoded, and the transport state is left
alone. -/
def NewRequest {σ URL Body Bytes : Type} (parse : String → Option URL)
    (encode : Body → Option Bytes) (method urlStr : String) (body : Option Body) (t : σ) :
    (Option (Request URL Bytes) × Option Error) × σ :=
  match parse urlStr with
  | none => ((none, some Error.requestConstruction), t)
  | some u =>
    match body with
    | none => ((some ⟨method, u, none⟩, none), t)
    | some b =>
      match encode b with
      | none => ((none, some Error.requestConstruction), t)
      | some bytes => ((some ⟨method, u, some bytes⟩, none), t)

/-- A client whose `NewRequest` is the modelled one and whose `Do` is arbitrary. -/
def specClient {σ Ctx URL Body Bytes Resp : Type} (parse : String → Option URL)
    (encode : Body → Option Bytes)
    (Do : Ctx → Option (Request URL Bytes) → Option (Option RepoImmutableReleasesStatus) → σ →
      DoResult Resp Error × σ) :
    Client σ Ctx Body (Request URL Bytes) Resp Error :=
  ⟨NewRequest parse encode, Do⟩

/-- An ASCII control character: code below 0x20, or 0x7f. -/
def isControl (c : Char) : Bool :=
  decide (c.toNat < 32) || decide (c.toNat = 127)

/-- A character that cannot occur inside a single path segment of a URL: a
control character, or the segment separator `/` (in RFC 3986 a segment is a
sequence of `pchar`, and neither is a `pchar`). -/
def illegalInSegment (c : Char) : Bool :=
  isControl c || decide (c = '/')

/-! ## JSON decoding of the status, modelled from the specification -/

/-- A JSON value; a number is kept as its literal text. -/
inductive JSON where
  | null
  | bool (b : Bool)
  | number (literal : String)
  | string (s : String)
  | array (items : List JSON)
  | object (members : List (String × JSON))

/-- The value of the last member of an object whose key satisfies `p`. -/
def JSON.lastMember (p : String → Bool) : List (String × JSON) → Option JSON
  | [] => none
  | kv :: rest =>
    match JSON.lastMember p rest with
    | some v => some v
    | none => if p kv.1 then some kv.2 else none

/-- The value of the last member of an object with exactly the key `k`. -/
def JSON.member (k : String) (members : List (String × JSON)) : Option JSON :=
  JSON.lastMember (fun key => decide (key = k)) members

/-- The case folding of `encoding/json`: the smallest character among those
that differ from `c` by case only.  A lower-case ASCII letter folds to its
upper-case letter, U+017F (long s) to `S` and U+212A (Kelvin sign) to `K`; no
other character folds to an ASCII one, and the model leaves those unchanged. -/
def foldRune (c : Char) : Char :=
  if 97 ≤ c.toNat ∧ c.toNat ≤ 122 then Char.ofNat (c.toNat - 32)
  else if c.toNat = 0x17F then 'S'
  else if c.toNat = 0x212A then 'K'
  else c

/-- The folded form of a name, character by character. -/
def foldName (name : String) : String :=
  ⟨name.data.map foldRune⟩

/-- Modelled from the spec: which object keys select a field, in the decoder
that runs inside `Client.Do` (defined outside `repos_immutable_releases.go`).
The `json` tags of lines 15 and 16 are interpreted by Go's `encoding/json`,
which documents the matching as "preferring an exact match but also accepting a
case-insensitive match": the key equals the name in the tag, or has the same
folded form. -/
def keyMatches (key name : String) : Bool :=
  decide (key = name) || decide (foldName key = foldName name)

/-- The value of the last member of an object whose key selects the field with
the `json` tag `name`. -/
def JSON.fieldMember (name : String) (members : List (String × JSON)) : Option JSON :=
  JSON.lastMember (fun key => keyMatches key name) members

/-- Modelled from the spec: decoding a JSON value into a `*bool` field.  The
decoder runs inside `Client.Do`, which is defined outside
`repos_immutable_releases.go`.  The spec: "every field is optional/nullable",
and a body that "does not match expected shape" is a decode error.  A boolean
sets the field, `null` sets the pointer to nil, every other value is an error. -/
def decodeBoolField : JSON → Except Error (Option Bool)
  | JSON.bool b => Except.ok (some b)
  | JSON.null => Except.ok none
  | _ => Except.error Error.decode

/-- Modelled from the spec: decoding one member of a JSON object into the
struct, by the `json` tags `enabled` and `enforced_by_owner` of its fields
(lines 15 and 16), keys being matched as `encoding/json` matches them; a member
whose key selects no field is skipped. -/
def decodeMember (st : RepoImmutableReleasesStatus) (kv : String × JSON) :
    Except Error RepoImmutableReleasesStatus :=
  if keyMatches kv.1 "enabled" then
    match decodeBoolField kv.2 with
    | Except.ok b => Except.ok ⟨b, st.EnforcedByOwner⟩
    | Except.error e => Except.error e
  else if keyMatches kv.1 "enforced_by_owner" then
    match decodeBoolField kv.2 with
    | Except.ok b => Except.ok ⟨st.Enabled, b⟩
    | Except.error e => Except.error e
  else Except.ok st

/-- Modelled from the spec: decoding the members of a JSON object into the
struct, in the order in which they are written.  A member of the wrong type
makes the decoding fail; what had been written before is not part of the
result. -/
def decodeMembers : RepoImmutableReleasesStatus → List (String × JSON) →
    Except Error RepoImmutableReleasesStatus
  | st, [] => Except.ok st
  | st, kv :: rest =>
    match decodeMember st kv with
    | Except.ok st1 => decodeMembers st1 rest
    | Except.error e => Except.error e

/-- Modelled from the spec: decoding a JSON value into the destination
`*RepoImmutableReleasesStatus`: an object fills a fresh struct ("fields not
present in the JSON payload remain unset"), `null` leaves the pointer nil, every
other value is a decode error. -/
def decodeStatus : JSON → Except Error (Option RepoImmutableReleasesStatus)
  | JSON.object members =>
    match decodeMembers ⟨none, none⟩ members with
    | Except.ok st => Except.ok (some st)
    | Except.error e => Except.error e
  | JSON.null => Except.ok none
  | _ => Except.error Error.decode

/-! ## The Marketplace endpoints, modelled from the specification -/

/-- Modelled from the spec: the Marketplace service; its methods are exercised
by `apps_marketplace_test.go`, their source file is missing.  The spec: "an instance-level
boolean on the service selects between two path templates". -/
structure MarketplaceService where
  Stubbed : Bool

/-- Modelled from the spec: the pagination options `Page` and `PerPage`. -/
structure ListOptions where
  Page : Int
  PerPage : Int

/-- The shape a Marketplace method decodes the response into. -/
inductive MarketplaceShape where
  | arrayOfPlan
  | arrayOfPlanAccount
  | planAccount
  | arrayOfPurchase
deriving DecidableEq

/-- What a Marketplace method asks of the client: verb, relative path, query
parameters and the shape of the destination. -/
structure MarketplaceCall where
  method : String
  path : String
  query : List (String × String)
  shape : MarketplaceShape
deriving DecidableEq

/-- Modelled from the spec: "Pagination query parameters `page`, `per_page`
applied when an options value with non-zero fields is supplied". -/
def addOptions : Option ListOptions → List (String × String)
  | none => []
  | some opts =>
    (if opts.Page = 0 then [] else [("page", toString opts.Page)]) ++
    (if opts.PerPage = 0 then [] else [("per_page", toString opts.PerPage)])

/-- Modelled from the spec: the path of a `marketplace_listing` endpoint,
`/marketplace_listing/...` or `/marketplace_listing/stubbed/...`. -/
def MarketplaceService.marketplaceURI (s : MarketplaceService) (endpoint : String) : String :=
  (if s.Stubbed then "marketplace_listing/stubbed" else "marketplace_listing") ++ "/" ++ endpoint

/-- Modelled from the spec: "List plans", `GET /marketplace_listing/plans` (or
`/marketplace_listing/stubbed/plans`), an array of Plan. -/
def MarketplaceService.ListPlans (s : MarketplaceService) (opts : Option ListOptions) :
    MarketplaceCall :=
  ⟨"GET", s.marketplaceURI "plans", addOptions opts, MarketplaceShape.arrayOfPlan⟩

/-- Modelled from the spec: "List plan accounts",
`GET /marketplace_listing/plans/{id}/accounts` (or stubbed variant), an array of
PlanAccount. -/
def MarketplaceService.ListPlanAccountsForPlan (s : MarketplaceService) (planID : Int)
    (opts : Option ListOptions) : MarketplaceCall :=
  ⟨"GET", s.marketplaceURI (Sprintf "plans/%v/accounts" [toString planID]), addOptions opts,
    MarketplaceShape.arrayOfPlanAccount⟩

/-- Modelled from the spec: "Get plan account for account",
`GET /marketplace_listing/accounts/{id}` (or stubbed variant), a PlanAccount. -/
def MarketplaceService.GetPlanAccountForAccount (s : MarketplaceService) (accountID : Int) :
    MarketplaceCall :=
  ⟨"GET", s.marketplaceURI (Sprintf "accounts/%v" [toString accountID]), [],
    MarketplaceShape.planAccount⟩

/-- Modelled from the spec: "List purchases for user",
`GET /user/marketplace_purchases` (or `/user/marketplace_purchases/stubbed`), an
array of Purchase. -/
def MarketplaceService.ListMarketplacePurchasesForUser (s : MarketplaceService)
    (opts : Option ListOptions) : MarketplaceCall :=
  ⟨"GET", if s.Stubbed then "user/marketplace_purchases/stubbed" else "user/marketplace_purchases",
    addOptions opts, MarketplaceShape.arrayOfPurchase⟩

/-! ## Concrete clients, used to instantiate the general statements -/

/-- A request descriptor: verb and relative URL. -/
structure SampleRequest where
  method : String
  urlStr : String
deriving DecidableEq

/-- A sample `NewRequest`: it refuses every URL containing a line feed. -/
def sampleNewRequest (method urlStr : String) (_body : Option Unit) (n : Nat) :
    (Option SampleRequest × Option String) × Nat :=
  if urlStr.data.contains (Char.ofNat 10) then
    ((none, some "invalid control character in URL"), n)
  else ((some ⟨method, urlStr⟩, none), n)

/-- A sample `Do`: it answers a `GET` with a decoded status and `PUT` and
`DELETE` with status code 204; the transport state counts the requests sent. -/
def sampleDo (_ctx : Unit) (req : Option SampleRequest)
    (_v : Option (Option RepoImmutableReleasesStatus)) (n : Nat) : DoResult Nat String × Nat :=
  match req with
  | none => (⟨none, some "no request", none⟩, n)
  | some r =>
    if r.method = "GET" then (⟨some 200, none, some ⟨some true, some false⟩⟩, n + 1)
    else (⟨some 204, none, none⟩, n + 1)

/-- The sample client. -/
def sampleClient : Client Nat Unit Unit SampleRequest Nat String :=
  ⟨sampleNewRequest, sampleDo⟩

/-- A client whose `Do` always fails, after having written a half-filled status
into the destination. -/
def failingClient : Client Nat Unit Unit SampleRequest Nat String :=
  ⟨sampleNewRequest, fun _ _ _ n =>
    (⟨some 500, some "500 Internal Server Error", some ⟨some true, none⟩⟩, n + 1)⟩

/-- A sample URL parser, used to run the statements at concrete inputs: it
refuses a relative URL with a control character and resolves any other against
the base URL `https://api.github.com/`. -/
def sampleParse (urlStr : String) : Option String :=
  if urlStr.data.any isControl then none else some ("https://api.github.com/" ++ urlStr)

/-- A sample body encoder: the body is sent as it is. -/
def sampleEncode (body : String) : Option String :=
  some body

/-- A `Do` for the modelled client: every request is answered with 204. -/
def noContentDo (_ctx : Unit) (_req : Option (Request String String))
    (_v : Option (Option RepoImmutableReleasesStatus)) (n : Nat) : DoResult Nat Error × Nat :=
  (⟨some 204, none, none⟩, n + 1)

/-! ## The relative path -/

section Theorems

variable {σ Ctx Body Req Resp Err : Type}

/-- The relative path that all three methods build. -/
theorem Sprintf_immutable_releases (owner repo : String) :
    Sprintf "repos/%v/%v/immutable-releases" [owner, repo]
      = "repos/" ++ owner ++ "/" ++ repo ++ "/immutable-releases" := by
  apply String.ext
  simp [Sprintf, Sprintf.go, String.data_append]

/-! ## The state after a call -/

/-- The world after `EnableImmutableReleases`. -/
theorem EnableImmutableReleases_world (s : RepositoriesService σ Ctx Body Req Resp Err)
    (ctx : Ctx) (owner repo : String) (w : World σ Ctx Body Req) :
    (EnableImmutableReleases s ctx owner repo w).2
      = ⟨transportAfter s.client ctx "PUT"
            ("repos/" ++ owner ++ "/" ++ repo ++ "/immutable-releases") none w.transport,
          w.log ++ callsOf s.client ctx "PUT"
            ("repos/" ++ owner ++ "/" ++ repo ++ "/immutable-releases") none w.transport⟩ := by
  simp only [EnableImmutableReleases, Sprintf_immutable_releases, Client.callNewRequest,
    Client.callDo, callsOf, transportAfter]
  split
  · simp_all
  · split <;> simp_all

/-- The world after `DisableImmutableReleases`. -/
theorem DisableImmutableReleases_world (s : RepositoriesService σ Ctx Body Req Resp Err)
    (ctx : Ctx) (owner repo : String) (w : World σ Ctx Body Req) :
    (DisableImmutableReleases s ctx owner repo w).2
      = ⟨transportAfter s.client ctx "DELETE"
            ("repos/" ++ owner ++ "/" ++ repo ++ "/immutable-releases") none w.transport,
          w.log ++ callsOf s.client ctx "DELETE"
            ("repos/" ++ owner ++ "/" ++ repo ++ "/immutable-releases") none w.transport⟩ := by
  simp only [DisableImmutableReleases, Sprintf_immutable_releases, Client.callNewRequest,
    Client.callDo, callsOf, transportAfter]
  split
  · simp_all
  · split <;> simp_all

/-- The world after `AreImmutableReleasesEnabled`. -/
theorem AreImmutableReleasesEnabled_world (s : RepositoriesService σ Ctx Body Req Resp Err)
    (ctx : Ctx) (owner repo : String) (w : World σ Ctx Body Req) :
    (AreImmutableReleasesEnabled s ctx owner repo w).2
      = ⟨transportAfter s.client ctx "GET"
            ("repos/" ++ owner ++ "/" ++ repo ++ "/immutable-releases") (some none) w.transport,
          w.log ++ callsOf s.client ctx "GET"
            ("repos/" ++ owner ++ "/" ++ repo ++ "/immutable-releases") (some none) w.transport⟩ := by
  simp only [AreImmutableReleasesEnabled, Sprintf_immutable_releases, Client.callNewRequest,
    Client.callDo, callsOf, transportAfter]
  split
  · simp_all
  · split <;> simp_all

/-! ## The successful paths -/

/-- C1: when `NewRequest` and `Do` both succeed, `AreImmutableReleasesEnabled`
has asked for `GET repos/<owner>/<repo>/immutable-releases` without a body, has
passed the address of the (nil) variable `status` to `Do`, and returns the status
that `Do` wrote there, the response of `Do` and a nil error. -/
theorem AreImmutableReleasesEnabled_ok (s : RepositoriesService σ Ctx Body Req Resp Err)
    (ctx : Ctx) (owner repo : String) (w : World σ Ctx Body Req)
    (req : Option Req) (t1 : σ)
    (hNew : s.client.NewRequest "GET" ("repos/" ++ owner ++ "/" ++ repo ++ "/immutable-releases")
      none w.transport = ((req, none), t1))
    (d : DoResult Resp Err) (t2 : σ)
    (hDo : s.client.Do ctx req (some none) t1 = (d, t2)) (hOk : d.err = none) :
    AreImmutableReleasesEnabled s ctx owner repo w
      = ((d.written, d.resp, none),
          ⟨t2, w.log ++ [Call.newRequest "GET"
              ("repos/" ++ owner ++ "/" ++ repo ++ "/immutable-releases") none,
            Call.doCall ctx req (some none)]⟩) := by
  simp [AreImmutableReleasesEnabled, Sprintf_immutable_releases, Client.callNewRequest,
    Client.callDo, hNew, hDo, hOk]

/-- C1, on the sample client: `GET repos/owner/repo/immutable-releases` yields the
decoded status, the response 200 and no error. -/
theorem AreImmutableReleasesEnabled_ok_witness :
    AreImmutableReleasesEnabled ⟨sampleClient⟩ () "owner" "repo" ⟨0, []⟩
      = ((some ⟨some true, some false⟩, some 200, none),
          ⟨1, [] ++ [Call.newRequest "GET"
              ("repos/" ++ "owner" ++ "/" ++ "repo" ++ "/immutable-releases") none,
            Call.doCall () (some ⟨"GET", "repos/owner/repo/immutable-releases"⟩) (some none)]⟩) :=
  AreImmutableReleasesEnabled_ok ⟨sampleClient⟩ () "owner" "repo" ⟨0, []⟩
    (some ⟨"GET", "repos/owner/repo/immutable-releases"⟩) 0 (by decide)
    ⟨some 200, none, some ⟨some true, some false⟩⟩ 1 (by decide) rfl

/-- C2: `EnableImmutableReleases` always asks for
`PUT repos/<owner>/<repo>/immutable-releases` without a body; when `NewRequest`
succeeds it calls `Do` with a nil destination, and when `Do` succeeds too it
returns the response of `Do` and a nil error. -/
theorem EnableImmutableReleases_ok (s : RepositoriesService σ Ctx Body Req Resp Err)
    (ctx : Ctx) (owner repo : String) (w : World σ Ctx Body Req) :
    (∃ rest, (EnableImmutableReleases s ctx owner repo w).2.log
        = w.log ++ Call.newRequest "PUT"
            ("repos/" ++ owner ++ "/" ++ repo ++ "/immutable-releases") none :: rest) ∧
    (∀ (req : Option Req) (t1 : σ) (d : DoResult Resp Err) (t2 : σ),
      s.client.NewRequest "PUT" ("repos/" ++ owner ++ "/" ++ repo ++ "/immutable-releases")
        none w.transport = ((req, none), t1) →
      s.client.Do ctx req none t1 = (d, t2) → d.err = none →
      EnableImmutableReleases s ctx owner repo w
        = ((d.resp, none),
            ⟨t2, w.log ++ [Call.newRequest "PUT"
                ("repos/" ++ owner ++ "/" ++ repo ++ "/immutable-releases") none,
              Call.doCall ctx req none]⟩)) := by
  constructor
  · exact ⟨_, by rw [EnableImmutableReleases_world]; rfl⟩
  · intro req t1 d t2 hNew hDo hOk
    simp [EnableImmutableReleases, Sprintf_immutable_releases, Client.callNewRequest,
      Client.callDo, hNew, hDo, hOk]

/-- C2, on the sample client: `PUT repos/owner/repo/immutable-releases` is
answered with 204 and the method returns that response and no error. -/
theorem EnableImmutableReleases_ok_witness :
    EnableImmutableReleases ⟨sampleClient⟩ () "owner" "repo" ⟨0, []⟩
      = ((some 204, none),
          ⟨1, [] ++ [Call.newRequest "PUT"
              ("repos/" ++ "owner" ++ "/" ++ "repo" ++ "/immutable-releases") none,
            Call.doCall () (some ⟨"PUT", "repos/owner/repo/immutable-releases"⟩) none]⟩) :=
  (EnableImmutableReleases_ok ⟨sampleClient⟩ () "owner" "repo" ⟨0, []⟩).2
    (some ⟨"PUT", "repos/owner/repo/immutable-releases"⟩) 0 ⟨some 204, none, none⟩ 1
    (by decide) (by decide) rfl

/-- C3: `DisableImmutableReleases` always asks for
`DELETE repos/<owner>/<repo>/immutable-releases` without a body; when
`NewRequest` succeeds it calls `Do` with a nil destination, and when `Do`
succeeds too it returns the response of `Do` and a nil error. -/
theorem DisableImmutableReleases_ok (s : RepositoriesService σ Ctx Body Req Resp Err)
    (ctx : Ctx) (owner repo : String) (w : World σ Ctx Body Req) :
    (∃ rest, (DisableImmutableReleases s ctx owner repo w).2.log
        = w.log ++ Call.newRequest "DELETE"
            ("repos/" ++ owner ++ "/" ++ repo ++ "/immutable-releases") none :: rest) ∧
    (∀ (req : Option Req) (t1 : σ) (d : DoResult Resp Err) (t2 : σ),
      s.client.NewRequest "DELETE" ("repos/" ++ owner ++ "/" ++ repo ++ "/immutable-releases")
        none w.transport = ((req, none), t1) →
      s.client.Do ctx req none t1 = (d, t2) → d.err = none →
      DisableImmutableReleases s ctx owner repo w
        = ((d.resp, none),
            ⟨t2, w.log ++ [Call.newRequest "DELETE"
                ("repos/" ++ owner ++ "/" ++ repo ++ "/immutable-releases") none,
              Call.doCall ctx req none]⟩)) := by
  constructor
  · exact ⟨_, by rw [DisableImmutableReleases_world]; rfl⟩
  · intro req t1 d t2 hNew hDo hOk
    simp [DisableImmutableReleases, Sprintf_immutable_releases, Client.callNewRequest,
      Client.callDo, hNew, hDo, hOk]

/-- C3, on the sample client: `DELETE repos/owner/repo/immutable-releases` is
answered with 204 and the method returns that response and no error. -/
theorem DisableImmutableReleases_ok_witness :
    DisableImmutableReleases ⟨sampleClient⟩ () "owner" "repo" ⟨0, []⟩
      = ((some 204, none),
          ⟨1, [] ++ [Call.newRequest "DELETE"
              ("repos/" ++ "owner" ++ "/" ++ "repo" ++ "/immutable-releases") none,
            Call.doCall () (some ⟨"DELETE", "repos/owner/repo/immutable-releases"⟩) none]⟩) :=
  (DisableImmutableReleases_ok ⟨sampleClient⟩ () "owner" "repo" ⟨0, []⟩).2
    (some ⟨"DELETE", "repos/owner/repo/immutable-releases"⟩) 0 ⟨some 204, none, none⟩ 1
    (by decide) (by decide) rfl

/-! ## The failing paths -/

/-- C4: when `NewRequest` succeeds and `Do` returns an error,
`AreImmutableReleasesEnabled` returns a nil status, whatever `Do` wrote into the
destination, together with the response and the error that `Do` returned. -/
theorem AreImmutableReleasesEnabled_do_error (s : RepositoriesService σ Ctx Body Req Resp Err)
    (ctx : Ctx) (owner repo : String) (w : World σ Ctx Body Req)
    (req : Option Req) (t1 : σ)
    (hNew : s.client.NewRequest "GET" ("repos/" ++ owner ++ "/" ++ repo ++ "/immutable-releases")
      none w.transport = ((req, none), t1))
    (d : DoResult Resp Err) (t2 : σ) (e : Err)
    (hDo : s.client.Do ctx req (some none) t1 = (d, t2)) (hErr : d.err = some e) :
    (AreImmutableReleasesEnabled s ctx owner repo w).1 = (none, d.resp, some e) := by
  simp [AreImmutableReleasesEnabled, Sprintf_immutable_releases, Client.callNewRequest,
    Client.callDo, hNew, hDo, hErr]

/-- C4, on a client whose `Do` writes a half-filled status and then fails with
status 500: the status returned is nil, the response and the error are those of
`Do`. -/
theorem AreImmutableReleasesEnabled_do_error_witness :
    (failingClient.Do () (some ⟨"GET", "repos/owner/repo/immutable-releases"⟩) (some none) 0).1.written
        = some ⟨some true, none⟩ ∧
      (AreImmutableReleasesEnabled ⟨failingClient⟩ () "owner" "repo" ⟨0, []⟩).1
        = (none, some 500, some "500 Internal Server Error") :=
  ⟨by decide,
    AreImmutableReleasesEnabled_do_error ⟨failingClient⟩ () "owner" "repo" ⟨0, []⟩
      (some ⟨"GET", "repos/owner/repo/immutable-releases"⟩) 0 (by decide)
      ⟨some 500, some "500 Internal Server Error", some ⟨some true, none⟩⟩ 1
      "500 Internal Server Error" (by decide) rfl⟩

/-- C6: when `NewRequest` returns an error, each of the three methods returns
exactly that error with a nil response (and a nil status), and the log has
gained the call of `NewRequest` only: `Do` is not called. -/
theorem NewRequest_error_returned (s : RepositoriesService σ Ctx Body Req Resp Err)
    (ctx : Ctx) (owner repo : String) (w : World σ Ctx Body Req) :
    (∀ (req : Option Req) (e : Err) (t1 : σ),
      s.client.NewRequest "PUT" ("repos/" ++ owner ++ "/" ++ repo ++ "/immutable-releases")
        none w.transport = ((req, some e), t1) →
      EnableImmutableReleases s ctx owner repo w
        = ((none, some e), ⟨t1, w.log ++ [Call.newRequest "PUT"
            ("repos/" ++ owner ++ "/" ++ repo ++ "/immutable-releases") none]⟩)) ∧
    (∀ (req : Option Req) (e : Err) (t1 : σ),
      s.client.NewRequest "DELETE" ("repos/" ++ owner ++ "/" ++ repo ++ "/immutable-releases")
        none w.transport = ((req, some e), t1) →
      DisableImmutableReleases s ctx owner repo w
        = ((none, some e), ⟨t1, w.log ++ [Call.newRequest "DELETE"
            ("repos/" ++ owner ++ "/" ++ repo ++ "/immutable-releases") none]⟩)) ∧
    (∀ (req : Option Req) (e : Err) (t1 : σ),
      s.client.NewRequest "GET" ("repos/" ++ owner ++ "/" ++ repo ++ "/immutable-releases")
        none w.transport = ((req, some e), t1) →
      AreImmutableReleasesEnabled s ctx owner repo w
        = ((none, none, some e), ⟨t1, w.log ++ [Call.newRequest "GET"
            ("repos/" ++ owner ++ "/" ++ repo ++ "/immutable-releases") none]⟩)) := by
  refine ⟨?_, ?_, ?_⟩
  · intro req e t1 hNew
    simp [EnableImmutableReleases, Sprintf_immutable_releases, Client.callNewRequest, hNew]
  · intro req e t1 hNew
    simp [DisableImmutableReleases, Sprintf_immutable_releases, Client.callNewRequest, hNew]
  · intro req e t1 hNew
    simp [AreImmutableReleasesEnabled, Sprintf_immutable_releases, Client.callNewRequest, hNew]

/-- C6, on the sample client, whose `NewRequest` refuses a line feed: the three
methods return its error, a nil response, and only `NewRequest` is logged. -/
theorem NewRequest_error_returned_witness :
    EnableImmutableReleases ⟨sampleClient⟩ () "\n" "\n" ⟨0, []⟩
        = ((none, some "invalid control character in URL"),
            ⟨0, [] ++ [Call.newRequest "PUT"
              ("repos/" ++ "\n" ++ "/" ++ "\n" ++ "/immutable-releases") none]⟩) ∧
      DisableImmutableReleases ⟨sampleClient⟩ () "\n" "\n" ⟨0, []⟩
        = ((none, some "invalid control character in URL"),
            ⟨0, [] ++ [Call.newRequest "DELETE"
              ("repos/" ++ "\n" ++ "/" ++ "\n" ++ "/immutable-releases") none]⟩) ∧
      AreImmutableReleasesEnabled ⟨sampleClient⟩ () "\n" "\n" ⟨0, []⟩
        = ((none, none, some "invalid control character in URL"),
            ⟨0, [] ++ [Call.newRequest "GET"
              ("repos/" ++ "\n" ++ "/" ++ "\n" ++ "/immutable-releases") none]⟩) :=
  ⟨(NewRequest_error_returned ⟨sampleClient⟩ () "\n" "\n" ⟨0, []⟩).1 none
      "invalid control character in URL" 0 (by decide),
    (NewRequest_error_returned ⟨sampleClient⟩ () "\n" "\n" ⟨0, []⟩).2.1 none
      "invalid control character in URL" 0 (by decide),
    (NewRequest_error_returned ⟨sampleClient⟩ () "\n" "\n" ⟨0, []⟩).2.2 none
      "invalid control character in URL" 0 (by decide)⟩

/-! ## One request per call -/

/-- A call adds one `NewRequest` to the log. -/
theorem callsOf_countP_isNewRequest (c : Client σ Ctx Body Req Resp Err) (ctx : Ctx)
    (method urlStr : String) (v : Option (Option RepoImmutableReleasesStatus)) (t : σ) :
    (callsOf c ctx method urlStr v t).countP Call.isNewRequest = 1 := by
  unfold callsOf
  split <;> simp [Call.isNewRequest]

/-- A call adds one `Do` to the log when `NewRequest` succeeded, and none otherwise. -/
theorem callsOf_countP_isDo (c : Client σ Ctx Body Req Resp Err) (ctx : Ctx)
    (method urlStr : String) (v : Option (Option RepoImmutableReleasesStatus)) (t : σ) :
    (callsOf c ctx method urlStr v t).countP Call.isDo
      = if (c.NewRequest method urlStr none t).1.2.isSome then 0 else 1 := by
  unfold callsOf
  split <;> simp [Call.isDo]

/-- C7: each of the three methods adds to the log one call of `NewRequest` and
at most one call of `Do` (one when `NewRequest` returned no error, none
otherwise), whatever `Do` returns; the transport state afterwards is the one
these calls leave, and nothing else is part of the state. -/
theorem single_request_per_call (s : RepositoriesService σ Ctx Body Req Resp Err)
    (ctx : Ctx) (owner repo : String) (w : World σ Ctx Body Req) :
    (∃ added,
      (EnableImmutableReleases s ctx owner repo w).2
        = ⟨transportAfter s.client ctx "PUT"
            ("repos/" ++ owner ++ "/" ++ repo ++ "/immutable-releases") none w.transport,
          w.log ++ added⟩ ∧
      added.countP Call.isNewRequest = 1 ∧ added.countP Call.isDo ≤ 1 ∧
      added.countP Call.isDo
        = if (s.client.NewRequest "PUT"
            ("repos/" ++ owner ++ "/" ++ repo ++ "/immutable-releases") none
            w.transport).1.2.isSome then 0 else 1) ∧
    (∃ added,
      (DisableImmutableReleases s ctx owner repo w).2
        = ⟨transportAfter s.client ctx "DELETE"
            ("repos/" ++ owner ++ "/" ++ repo ++ "/immutable-releases") none w.transport,
          w.log ++ added⟩ ∧
      added.countP Call.isNewRequest = 1 ∧ added.countP Call.isDo ≤ 1 ∧
      added.countP Call.isDo
        = if (s.client.NewRequest "DELETE"
            ("repos/" ++ owner ++ "/" ++ repo ++ "/immutable-releases") none
            w.transport).1.2.isSome then 0 else 1) ∧
    (∃ added,
      (AreImmutableReleasesEnabled s ctx owner repo w).2
        = ⟨transportAfter s.client ctx "GET"
            ("repos/" ++ owner ++ "/" ++ repo ++ "/immutable-releases") (some none) w.transport,
          w.log ++ added⟩ ∧
      added.countP Call.isNewRequest = 1 ∧ added.countP Call.isDo ≤ 1 ∧
      added.countP Call.isDo
        = if (s.client.NewRequest "GET"
            ("repos/" ++ owner ++ "/" ++ repo ++ "/immutable-releases") none
            w.transport).1.2.isSome then 0 else 1) := by
  refine ⟨⟨_, EnableImmutableReleases_world s ctx owner repo w,
      callsOf_countP_isNewRequest _ _ _ _ _ _, ?_, callsOf_countP_isDo _ _ _ _ _ _⟩,
    ⟨_, DisableImmutableReleases_world s ctx owner repo w,
      callsOf_countP_isNewRequest _ _ _ _ _ _, ?_, callsOf_countP_isDo _ _ _ _ _ _⟩,
    ⟨_, AreImmutableReleasesEnabled_world s ctx owner repo w,
      callsOf_countP_isNewRequest _ _ _ _ _ _, ?_, callsOf_countP_isDo _ _ _ _ _ _⟩⟩ <;>
  · rw [callsOf_countP_isDo]
    split <;> omega

/-! ## The path identifies the repository -/

/-- Two lists that agree after being cut at the first occurrence of `c` agree
before and after it. -/
theorem eq_of_append_cons_eq (c : Char) :
    ∀ (a b x y : List Char), c ∉ a → c ∉ b → a ++ c :: x = b ++ c :: y → a = b ∧ x = y
  | [], [], x, y, _, _, h => by simpa using h
  | [], b0 :: b, x, y, _, hb, h => by
    simp only [List.nil_append, List.cons_append, List.cons.injEq] at h
    exact absurd (h.1 ▸ List.mem_cons_self _ _) hb
  | a0 :: a, [], x, y, ha, _, h => by
    simp only [List.nil_append, List.cons_append, List.cons.injEq] at h
    exact absurd (h.1 ▸ List.mem_cons_self _ _) ha
  | a0 :: a, b0 :: b, x, y, ha, hb, h => by
    simp only [List.cons_append, List.cons.injEq] at h
    have ih := eq_of_append_cons_eq c a b x y
      (fun hm => ha (List.mem_cons_of_mem _ hm)) (fun hm => hb (List.mem_cons_of_mem _ hm)) h.2
    exact ⟨by rw [h.1, ih.1], ih.2⟩

/-- The relative path determines owner and repo when the owners contain no `/`. -/
theorem path_injective (owner1 repo1 owner2 repo2 : String)
    (h1 : '/' ∉ owner1.data) (h2 : '/' ∉ owner2.data)
    (h : "repos/" ++ owner1 ++ "/" ++ repo1 ++ "/immutable-releases"
      = "repos/" ++ owner2 ++ "/" ++ repo2 ++ "/immutable-releases") :
    owner1 = owner2 ∧ repo1 = repo2 := by
  have hd := congrArg String.data h
  simp only [String.data_append] at hd
  simp only [List.append_assoc, List.singleton_append] at hd
  have h3 := List.append_cancel_left hd
  have h4 := eq_of_append_cons_eq '/' _ _ _ _ h1 h2 h3
  exact ⟨String.ext h4.1, String.ext (List.append_cancel_right h4.2)⟩

/-- C10: the three methods make the same calls on the same relative path
`repos/<owner>/<repo>/immutable-releases`, up to the verb (PUT, DELETE, GET) and
the destination handed to `Do` (nil, nil, the address of `status`);
for parameters without `/` that path determines owner and repo; and the
parameters are not escaped: `("a/b", "c")` and `("a", "b/c")` give the same
path. -/
theorem path_identifies_repository :
    (∀ (s : RepositoriesService σ Ctx Body Req Resp Err) (ctx : Ctx) (owner repo : String)
        (w : World σ Ctx Body Req),
      (EnableImmutableReleases s ctx owner repo w).2.log
          = w.log ++ callsOf s.client ctx "PUT"
              ("repos/" ++ owner ++ "/" ++ repo ++ "/immutable-releases") none w.transport ∧
        (DisableImmutableReleases s ctx owner repo w).2.log
          = w.log ++ callsOf s.client ctx "DELETE"
              ("repos/" ++ owner ++ "/" ++ repo ++ "/immutable-releases") none w.transport ∧
        (AreImmutableReleasesEnabled s ctx owner repo w).2.log
          = w.log ++ callsOf s.client ctx "GET"
              ("repos/" ++ owner ++ "/" ++ repo ++ "/immutable-releases") (some none)
              w.transport) ∧
    (∀ owner1 repo1 owner2 repo2 : String,
      '/' ∉ owner1.data → '/' ∉ repo1.data → '/' ∉ owner2.data → '/' ∉ repo2.data →
      Sprintf "repos/%v/%v/immutable-releases" [owner1, repo1]
        = Sprintf "repos/%v/%v/immutable-releases" [owner2, repo2] →
      owner1 = owner2 ∧ repo1 = repo2) ∧
    Sprintf "repos/%v/%v/immutable-releases" ["a/b", "c"]
      = Sprintf "repos/%v/%v/immutable-releases" ["a", "b/c"] := by
  refine ⟨?_, ?_, by decide⟩
  · intro s ctx owner repo w
    exact ⟨by rw [EnableImmutableReleases_world], by rw [DisableImmutableReleases_world],
      by rw [AreImmutableReleasesEnabled_world]⟩
  · intro owner1 repo1 owner2 repo2 h1 _ h2 _ h
    rw [Sprintf_immutable_releases, Sprintf_immutable_releases] at h
    exact path_injective owner1 repo1 owner2 repo2 h1 h2 h

/-- C10, at `("owner", "repo")`: the parameters contain no `/`, and equality of
the paths gives equality of the parameters. -/
theorem path_identifies_repository_witness :
    '/' ∉ "owner".data ∧ '/' ∉ "repo".data ∧ ("owner" = "owner" ∧ "repo" = "repo") :=
  ⟨by decide, by decide,
    (@path_identifies_repository Nat Unit Unit SampleRequest Nat String).2.1
      "owner" "repo" "owner" "repo" (by decide) (by decide) (by decide) (by decide) rfl⟩

/-! ## Path parameters that `NewRequest` refuses -/

/-- C5 (amended): owner and repo reach `NewRequest` unescaped, inside the path
`repos/<owner>/<repo>/immutable-releases`.  When `NewRequest` refuses that path as
malformed, each of the three methods returns the request-construction error with
a nil response (and a nil status), and only `NewRequest` has been called: `Do`
is not attempted.  When it accepts the path, each method goes on to call `Do`
with the request built from it. -/
theorem malformed_path_fails_before_Do {τ C U B Y R : Type} (parse : String → Option U)
    (encode : B → Option Y)
    (Do : C → Option (Request U Y) → Option (Option RepoImmutableReleasesStatus) → τ →
      DoResult R Error × τ)
    (ctx : C) (owner repo : String) (w : World τ C B (Request U Y)) :
    (parse ("repos/" ++ owner ++ "/" ++ repo ++ "/immutable-releases") = none →
      EnableImmutableReleases ⟨specClient parse encode Do⟩ ctx owner repo w
        = ((none, some Error.requestConstruction),
            ⟨w.transport, w.log ++ [Call.newRequest "PUT"
              ("repos/" ++ owner ++ "/" ++ repo ++ "/immutable-releases") none]⟩) ∧
      DisableImmutableReleases ⟨specClient parse encode Do⟩ ctx owner repo w
        = ((none, some Error.requestConstruction),
            ⟨w.transport, w.log ++ [Call.newRequest "DELETE"
              ("repos/" ++ owner ++ "/" ++ repo ++ "/immutable-releases") none]⟩) ∧
      AreImmutableReleasesEnabled ⟨specClient parse encode Do⟩ ctx owner repo w
        = ((none, none, some Error.requestConstruction),
            ⟨w.transport, w.log ++ [Call.newRequest "GET"
              ("repos/" ++ owner ++ "/" ++ repo ++ "/immutable-releases") none]⟩)) ∧
    (∀ u : U, parse ("repos/" ++ owner ++ "/" ++ repo ++ "/immutable-releases") = some u →
      (EnableImmutableReleases ⟨specClient parse encode Do⟩ ctx owner repo w).2.log
        = w.log ++ [Call.newRequest "PUT"
            ("repos/" ++ owner ++ "/" ++ repo ++ "/immutable-releases") none,
          Call.doCall ctx (some ⟨"PUT", u, none⟩) none] ∧
      (DisableImmutableReleases ⟨specClient parse encode Do⟩ ctx owner repo w).2.log
        = w.log ++ [Call.newRequest "DELETE"
            ("repos/" ++ owner ++ "/" ++ repo ++ "/immutable-releases") none,
          Call.doCall ctx (some ⟨"DELETE", u, none⟩) none] ∧
      (AreImmutableReleasesEnabled ⟨specClient parse encode Do⟩ ctx owner repo w).2.log
        = w.log ++ [Call.newRequest "GET"
            ("repos/" ++ owner ++ "/" ++ repo ++ "/immutable-releases") none,
          Call.doCall ctx (some ⟨"GET", u, none⟩) (some none)]) := by
  constructor
  · intro h
    refine ⟨?_, ?_, ?_⟩
    · simp [EnableImmutableReleases, Sprintf_immutable_releases, Client.callNewRequest,
        specClient, NewRequest, h]
    · simp [DisableImmutableReleases, Sprintf_immutable_releases, Client.callNewRequest,
        specClient, NewRequest, h]
    · simp [AreImmutableReleasesEnabled, Sprintf_immutable_releases, Client.callNewRequest,
        specClient, NewRequest, h]
  · intro u h
    refine ⟨?_, ?_, ?_⟩
    · rw [EnableImmutableReleases_world]
      simp [callsOf, specClient, NewRequest, h]
    · rw [DisableImmutableReleases_world]
      simp [callsOf, specClient, NewRequest, h]
    · rw [AreImmutableReleasesEnabled_world]
      simp [callsOf, specClient, NewRequest, h]

/-- C5 (amended), at owner and repo `"\n"`, the input of the tests: the path is
refused by the sample parser and `Do` is not called. -/
theorem malformed_path_fails_before_Do_witness :
    "\n".data.any illegalInSegment = true ∧
      sampleParse ("repos/" ++ "\n" ++ "/" ++ "\n" ++ "/immutable-releases") = none ∧
      EnableImmutableReleases ⟨specClient sampleParse sampleEncode noContentDo⟩ () "\n" "\n"
          ⟨0, []⟩
        = ((none, some Error.requestConstruction),
            ⟨0, [] ++ [Call.newRequest "PUT"
              ("repos/" ++ "\n" ++ "/" ++ "\n" ++ "/immutable-releases") none]⟩) :=
  ⟨by decide, by decide,
    ((malformed_path_fails_before_Do sampleParse sampleEncode noContentDo () "\n" "\n"
      ⟨0, []⟩).1 (by decide)).1⟩

/-- C5 as stated fails at owner `"a/b"`, repo `"c"`: the character `/` cannot
occur inside a path segment, yet it is interpolated unescaped, the relative path
`repos/a/b/c/immutable-releases` is well formed, `NewRequest` accepts it and
`Do` is called; the method returns the 204 response and no error. -/
theorem slash_in_owner_reaches_Do :
    "a/b".data.any illegalInSegment = true ∧
      EnableImmutableReleases ⟨specClient sampleParse sampleEncode noContentDo⟩ () "a/b" "c"
          ⟨0, []⟩
        = ((some 204, none),
            ⟨1, [Call.newRequest "PUT" "repos/a/b/c/immutable-releases" none,
              Call.doCall ()
                (some ⟨"PUT", "https://api.github.com/repos/a/b/c/immutable-releases", none⟩)
                none]⟩) := by
  decide

/-! ## Decoding the status -/

/-- A member whose key does not satisfy `p` does not change what is found. -/
theorem JSON.lastMember_cons_of_false (p : String → Bool) (kv : String × JSON)
    (rest : List (String × JSON)) (h : p kv.1 = false) :
    JSON.lastMember p (kv :: rest) = JSON.lastMember p rest := by
  rw [JSON.lastMember]
  cases JSON.lastMember p rest <;> simp [h]

/-- A member whose key satisfies `p` is found unless a later member is. -/
theorem JSON.lastMember_cons_of_true (p : String → Bool) (kv : String × JSON)
    (rest : List (String × JSON)) (h : p kv.1 = true) :
    JSON.lastMember p (kv :: rest) = some ((JSON.lastMember p rest).getD kv.2) := by
  rw [JSON.lastMember]
  cases JSON.lastMember p rest <;> simp [h]

/-- A key that selects a field has the folded form of the field's name. -/
theorem keyMatches_foldName (key name : String) (h : keyMatches key name = true) :
    foldName key = foldName name := by
  simp only [keyMatches, Bool.or_eq_true, decide_eq_true_eq] at h
  rcases h with h | h
  · rw [h]
  · exact h

/-- No key selects both fields. -/
theorem keyMatches_enabled_not_enforced (key : String) (h : keyMatches key "enabled" = true) :
    keyMatches key "enforced_by_owner" = false := by
  cases h2 : keyMatches key "enforced_by_owner" with
  | false => rfl
  | true =>
    have e1 := keyMatches_foldName _ _ h
    have e2 := keyMatches_foldName _ _ h2
    rw [e1] at e2
    exact absurd e2 (by decide)

/-- The only error of `decodeBoolField` is the decode error, and it is the
result for every value that is neither `null` nor a boolean. -/
theorem decodeBoolField_error (v : JSON) (hn : v ≠ JSON.null) (hb : ∀ b, v ≠ JSON.bool b) :
    decodeBoolField v = Except.error Error.decode := by
  cases v with
  | null => exact absurd rfl hn
  | bool b => exact absurd rfl (hb b)
  | number _ => rfl
  | string _ => rfl
  | array _ => rfl
  | object _ => rfl

/-- After a successful decoding of the members of an object, each field is what
the last member selecting it decodes to, and keeps its value when there is no
such member. -/
theorem decodeMembers_fields :
    ∀ (members : List (String × JSON)) (st st1 : RepoImmutableReleasesStatus),
      decodeMembers st members = Except.ok st1 →
        (∀ v, JSON.fieldMember "enabled" members = some v →
          decodeBoolField v = Except.ok st1.Enabled) ∧
        (JSON.fieldMember "enabled" members = none → st1.Enabled = st.Enabled) ∧
        (∀ v, JSON.fieldMember "enforced_by_owner" members = some v →
          decodeBoolField v = Except.ok st1.EnforcedByOwner) ∧
        (JSON.fieldMember "enforced_by_owner" members = none →
          st1.EnforcedByOwner = st.EnforcedByOwner)
  | [], st, st1, h => by
    simp only [decodeMembers, Except.ok.injEq] at h
    subst h
    simp [JSON.fieldMember, JSON.lastMember]
  | kv :: rest, st, st1, h => by
    unfold JSON.fieldMember
    cases h1 : keyMatches kv.1 "enabled" with
    | true =>
      have h2 := keyMatches_enabled_not_enforced _ h1
      rw [JSON.lastMember_cons_of_true _ _ _ h1, JSON.lastMember_cons_of_false _ _ _ h2]
      simp only [decodeMembers, decodeMember, h1, if_true] at h
      cases hv : decodeBoolField kv.2 with
      | error e => rw [hv] at h; simp at h
      | ok ob =>
        rw [hv] at h
        obtain ⟨a1, a2, a3, a4⟩ := decodeMembers_fields rest ⟨ob, st.EnforcedByOwner⟩ st1 h
        refine ⟨?_, by simp, a3, a4⟩
        intro v hm
        cases hr : JSON.lastMember (fun key => keyMatches key "enabled") rest with
        | some v1 =>
          rw [hr] at hm
          simp only [Option.getD_some, Option.some.injEq] at hm
          exact a1 v (by rw [← hm]; exact hr)
        | none =>
          rw [hr] at hm
          simp only [Option.getD_none, Option.some.injEq] at hm
          rw [← hm, hv, a2 hr]
    | false =>
      cases h2 : keyMatches kv.1 "enforced_by_owner" with
      | true =>
        rw [JSON.lastMember_cons_of_false _ _ _ h1, JSON.lastMember_cons_of_true _ _ _ h2]
        simp only [decodeMembers, decodeMember, h1, h2, if_true, Bool.false_eq_true,
          if_false] at h
        cases hv : decodeBoolField kv.2 with
        | error e => rw [hv] at h; simp at h
        | ok ob =>
          rw [hv] at h
          obtain ⟨a1, a2, a3, a4⟩ := decodeMembers_fields rest ⟨st.Enabled, ob⟩ st1 h
          refine ⟨a1, a2, ?_, by simp⟩
          intro v hm
          cases hr : JSON.lastMember (fun key => keyMatches key "enforced_by_owner") rest with
          | some v1 =>
            rw [hr] at hm
            simp only [Option.getD_some, Option.some.injEq] at hm
            exact a3 v (by rw [← hm]; exact hr)
          | none =>
            rw [hr] at hm
            simp only [Option.getD_none, Option.some.injEq] at hm
            rw [← hm, hv, a4 hr]
      | false =>
        rw [JSON.lastMember_cons_of_false _ _ _ h1, JSON.lastMember_cons_of_false _ _ _ h2]
        simp only [decodeMembers, decodeMember, h1, h2, Bool.false_eq_true, if_false] at h
        exact decodeMembers_fields rest st st1 h

/-- Decoding the members of an object succeeds when every member that selects a
field is `null` or a boolean. -/
theorem decodeMembers_total :
    ∀ (members : List (String × JSON)) (st : RepoImmutableReleasesStatus),
      (∀ kv ∈ members,
        keyMatches kv.1 "enabled" = true ∨ keyMatches kv.1 "enforced_by_owner" = true →
        kv.2 = JSON.null ∨ ∃ b, kv.2 = JSON.bool b) →
      ∃ st1, decodeMembers st members = Except.ok st1
  | [], st, _ => ⟨st, rfl⟩
  | kv :: rest, st, hT => by
    have hT1 : ∀ kv1 ∈ rest,
        keyMatches kv1.1 "enabled" = true ∨ keyMatches kv1.1 "enforced_by_owner" = true →
        kv1.2 = JSON.null ∨ ∃ b, kv1.2 = JSON.bool b :=
      fun kv1 hm => hT kv1 (List.mem_cons_of_mem _ hm)
    cases h1 : keyMatches kv.1 "enabled" with
    | true =>
      have hv : ∃ ob, decodeBoolField kv.2 = Except.ok ob := by
        rcases hT kv (List.mem_cons_self _ _) (Or.inl h1) with hn | ⟨b, hb⟩
        · exact ⟨none, by rw [hn]; rfl⟩
        · exact ⟨some b, by rw [hb]; rfl⟩
      obtain ⟨ob, hob⟩ := hv
      obtain ⟨st1, hd⟩ := decodeMembers_total rest ⟨ob, st.EnforcedByOwner⟩ hT1
      exact ⟨st1, by simp [decodeMembers, decodeMember, h1, hob, hd]⟩
    | false =>
      cases h2 : keyMatches kv.1 "enforced_by_owner" with
      | true =>
        have hv : ∃ ob, decodeBoolField kv.2 = Except.ok ob := by
          rcases hT kv (List.mem_cons_self _ _) (Or.inr h2) with hn | ⟨b, hb⟩
          · exact ⟨none, by rw [hn]; rfl⟩
          · exact ⟨some b, by rw [hb]; rfl⟩
        obtain ⟨ob, hob⟩ := hv
        obtain ⟨st1, hd⟩ := decodeMembers_total rest ⟨st.Enabled, ob⟩ hT1
        exact ⟨st1, by simp [decodeMembers, decodeMember, h1, h2, hob, hd]⟩
      | false =>
        obtain ⟨st1, hd⟩ := decodeMembers_total rest st hT1
        exact ⟨st1, by simp [decodeMembers, decodeMember, h1, h2, hd]⟩

/-- A member that selects a field and is neither `null` nor a boolean makes the
decoding of that member fail. -/
theorem decodeMember_error (st : RepoImmutableReleasesStatus) (kv : String × JSON)
    (hk : keyMatches kv.1 "enabled" = true ∨ keyMatches kv.1 "enforced_by_owner" = true)
    (hn : kv.2 ≠ JSON.null) (hb : ∀ b, kv.2 ≠ JSON.bool b) :
    decodeMember st kv = Except.error Error.decode := by
  have hv := decodeBoolField_error kv.2 hn hb
  cases h1 : keyMatches kv.1 "enabled" with
  | true => simp [decodeMember, h1, hv]
  | false =>
    rcases hk with hk | hk
    · rw [h1] at hk; exact absurd hk (by decide)
    · simp [decodeMember, h1, hk, hv]

/-- Every error of the decoding of a member is the decode error. -/
theorem decodeMember_error_eq (st : RepoImmutableReleasesStatus) (kv : String × JSON)
    (e : Error) (h : decodeMember st kv = Except.error e) : e = Error.decode := by
  have hv : ∀ e1, decodeBoolField kv.2 = Except.error e1 → e1 = Error.decode := by
    intro e1 h1
    cases hkv : kv.2 <;> rw [hkv] at h1 <;> simp [decodeBoolField] at h1 <;> exact h1.symm
  unfold decodeMember at h
  split at h
  · cases hd : decodeBoolField kv.2 with
    | error e1 => rw [hd] at h; simp at h; rw [← h]; exact hv e1 hd
    | ok ob => rw [hd] at h; simp at h
  · split at h
    · cases hd : decodeBoolField kv.2 with
      | error e1 => rw [hd] at h; simp at h; rw [← h]; exact hv e1 hd
      | ok ob => rw [hd] at h; simp at h
    · simp at h

/-- Decoding the members of an object fails with the decode error when some
member that selects a field is neither `null` nor a boolean. -/
theorem decodeMembers_error :
    ∀ (members : List (String × JSON)) (st : RepoImmutableReleasesStatus),
      (∃ kv ∈ members,
        (keyMatches kv.1 "enabled" = true ∨ keyMatches kv.1 "enforced_by_owner" = true) ∧
        kv.2 ≠ JSON.null ∧ ∀ b, kv.2 ≠ JSON.bool b) →
      decodeMembers st members = Except.error Error.decode
  | [], _, h => by
    obtain ⟨kv, hm, _⟩ := h
    exact absurd hm (List.not_mem_nil _)
  | kv :: rest, st, h => by
    cases hd : decodeMember st kv with
    | error e =>
      simp only [decodeMembers, hd]
      rw [decodeMember_error_eq st kv e hd]
    | ok st1 =>
      simp only [decodeMembers, hd]
      obtain ⟨kv1, hm, hk, hn, hb⟩ := h
      rcases List.mem_cons.mp hm with heq | hr
      · rw [heq] at hk hn hb
        rw [decodeMember_error st kv hk hn hb] at hd
        simp at hd
      · exact decodeMembers_error rest st1 ⟨kv1, hr, hk, hn, hb⟩

/-- C8 (amended): a JSON object decodes when every member whose key is
`enabled` or `enforced_by_owner`, the case of letters ignored, is `null` or a
boolean, and fails with a decode error when some such member is of another
type.  Whenever the decoding succeeds, `Enabled` is the boolean of the last
member whose key is `enabled` up to case, and is unset when that member is
`null` or when there is no such member; `EnforcedByOwner` likewise for
`enforced_by_owner`.  The object with `enabled` true and `enforced_by_owner`
false yields both fields set, and a field set to false differs from an absent
one. -/
theorem decodeStatus_fields_up_to_case :
    (∀ members : List (String × JSON),
      (∀ kv ∈ members,
        keyMatches kv.1 "enabled" = true ∨ keyMatches kv.1 "enforced_by_owner" = true →
        kv.2 = JSON.null ∨ ∃ b, kv.2 = JSON.bool b) →
      ∃ st, decodeStatus (JSON.object members) = Except.ok (some st)) ∧
    (∀ members : List (String × JSON),
      (∃ kv ∈ members,
        (keyMatches kv.1 "enabled" = true ∨ keyMatches kv.1 "enforced_by_owner" = true) ∧
        kv.2 ≠ JSON.null ∧ ∀ b, kv.2 ≠ JSON.bool b) →
      decodeStatus (JSON.object members) = Except.error Error.decode) ∧
    (∀ (members : List (String × JSON)) (status : Option RepoImmutableReleasesStatus),
      decodeStatus (JSON.object members) = Except.ok status →
      ∃ st, status = some st ∧
        (∀ b, JSON.fieldMember "enabled" members = some (JSON.bool b) → st.Enabled = some b) ∧
        (JSON.fieldMember "enabled" members = some JSON.null → st.Enabled = none) ∧
        (JSON.fieldMember "enabled" members = none → st.Enabled = none) ∧
        (∀ b, JSON.fieldMember "enforced_by_owner" members = some (JSON.bool b) →
          st.EnforcedByOwner = some b) ∧
        (JSON.fieldMember "enforced_by_owner" members = some JSON.null →
          st.EnforcedByOwner = none) ∧
        (JSON.fieldMember "enforced_by_owner" members = none → st.EnforcedByOwner = none)) ∧
    decodeStatus (JSON.object
        [("enabled", JSON.bool true), ("enforced_by_owner", JSON.bool false)])
      = Except.ok (some ⟨some true, some false⟩) ∧
    decodeStatus (JSON.object [("enforced_by_owner", JSON.bool false)])
      = Except.ok (some ⟨none, some false⟩) ∧
    decodeStatus (JSON.object []) = Except.ok (some ⟨none, none⟩) := by
  refine ⟨?_, ?_, ?_, rfl, rfl, rfl⟩
  · intro members hT
    obtain ⟨st, hd⟩ := decodeMembers_total members ⟨none, none⟩ hT
    exact ⟨st, by simp [decodeStatus, hd]⟩
  · intro members hE
    simp [decodeStatus, decodeMembers_error members ⟨none, none⟩ hE]
  · intro members status h
    simp only [decodeStatus] at h
    cases hd : decodeMembers ⟨none, none⟩ members with
    | error e => rw [hd] at h; simp at h
    | ok st =>
      rw [hd] at h
      simp only [Except.ok.injEq] at h
      obtain ⟨a1, a2, a3, a4⟩ := decodeMembers_fields members ⟨none, none⟩ st hd
      refine ⟨st, h.symm, ?_, ?_, a2, ?_, ?_, a4⟩
      · intro b hm
        have := a1 _ hm
        simp only [decodeBoolField, Except.ok.injEq] at this
        exact this.symm
      · intro hm
        have := a1 _ hm
        simp only [decodeBoolField, Except.ok.injEq] at this
        exact this.symm
      · intro b hm
        have := a3 _ hm
        simp only [decodeBoolField, Except.ok.injEq] at this
        exact this.symm
      · intro hm
        have := a3 _ hm
        simp only [decodeBoolField, Except.ok.injEq] at this
        exact this.symm

/-- C8 (amended), at the object with the members `Enabled: true` and
`enforced_by_owner: null`: it decodes, into the status with `Enabled` set to
true and `EnforcedByOwner` unset. -/
theorem decodeStatus_fields_up_to_case_witness :
    (∃ st, decodeStatus (JSON.object
        [("Enabled", JSON.bool true), ("enforced_by_owner", JSON.null)])
      = Except.ok (some st)) ∧
    decodeStatus (JSON.object [("enabled", JSON.string "yes")])
      = Except.error Error.decode :=
  ⟨decodeStatus_fields_up_to_case.1
      [("Enabled", JSON.bool true), ("enforced_by_owner", JSON.null)]
      (by
        intro kv hm _
        simp only [List.mem_cons, List.mem_singleton, List.not_mem_nil, or_false] at hm
        rcases hm with hm | hm
        · exact Or.inr ⟨true, by rw [hm]⟩
        · exact Or.inl (by rw [hm])),
    decodeStatus_fields_up_to_case.2.1 [("enabled", JSON.string "yes")]
      ⟨("enabled", JSON.string "yes"), List.mem_singleton.mpr rfl, Or.inl (by decide),
        by simp, by simp⟩⟩

/-- C8 as stated fails at the object with the single member `ENABLED: true`: no
member has the key `enabled`, yet `Enabled` is set to true; and at the object
with the members `enabled: true` and `Enabled: false` the member under the key
`enabled` is true, yet `Enabled` is set to false. -/
theorem key_of_other_case_sets_field :
    JSON.member "enabled" [("ENABLED", JSON.bool true)] = none ∧
      decodeStatus (JSON.object [("ENABLED", JSON.bool true)])
        = Except.ok (some ⟨some true, none⟩) ∧
      JSON.member "enabled" [("enabled", JSON.bool true), ("Enabled", JSON.bool false)]
        = some (JSON.bool true) ∧
      decodeStatus (JSON.object [("enabled", JSON.bool true), ("Enabled", JSON.bool false)])
        = Except.ok (some ⟨some false, none⟩) :=
  ⟨rfl, rfl, rfl, rfl⟩

/-! ## The Marketplace endpoints -/

/-- C9: with `Stubbed` false the four Marketplace methods ask for
`GET /marketplace_listing/plans`, `/marketplace_listing/plans/{id}/accounts`,
`/marketplace_listing/accounts/{id}` and `/user/marketplace_purchases`; with
`Stubbed` true for `/marketplace_listing/stubbed/plans`,
`/marketplace_listing/stubbed/plans/{id}/accounts`,
`/marketplace_listing/stubbed/accounts/{id}` and
`/user/marketplace_purchases/stubbed`; the verb is `GET`, and the query
parameters and the shape decoded are the same in both modes; for the id 1 and
the options of the tests the paths and the query are the expected ones. -/
theorem Stubbed_selects_path (opts : Option ListOptions) (id : Int) (s : MarketplaceService) :
    ("/" ++ (MarketplaceService.ListPlans ⟨false⟩ opts).path = "/marketplace_listing/plans" ∧
      "/" ++ (MarketplaceService.ListPlanAccountsForPlan ⟨false⟩ id opts).path
        = "/marketplace_listing/plans/" ++ toString id ++ "/accounts" ∧
      "/" ++ (MarketplaceService.GetPlanAccountForAccount ⟨false⟩ id).path
        = "/marketplace_listing/accounts/" ++ toString id ∧
      "/" ++ (MarketplaceService.ListMarketplacePurchasesForUser ⟨false⟩ opts).path
        = "/user/marketplace_purchases") ∧
    ("/" ++ (MarketplaceService.ListPlans ⟨true⟩ opts).path
        = "/marketplace_listing/stubbed/plans" ∧
      "/" ++ (MarketplaceService.ListPlanAccountsForPlan ⟨true⟩ id opts).path
        = "/marketplace_listing/stubbed/plans/" ++ toString id ++ "/accounts" ∧
      "/" ++ (MarketplaceService.GetPlanAccountForAccount ⟨true⟩ id).path
        = "/marketplace_listing/stubbed/accounts/" ++ toString id ∧
      "/" ++ (MarketplaceService.ListMarketplacePurchasesForUser ⟨true⟩ opts).path
        = "/user/marketplace_purchases/stubbed") ∧
    ((s.ListPlans opts).method = "GET" ∧ (s.ListPlanAccountsForPlan id opts).method = "GET" ∧
      (s.GetPlanAccountForAccount id).method = "GET" ∧
      (s.ListMarketplacePurchasesForUser opts).method = "GET") ∧
    ((MarketplaceService.ListPlans ⟨true⟩ opts).query
        = (MarketplaceService.ListPlans ⟨false⟩ opts).query ∧
      (MarketplaceService.ListPlanAccountsForPlan ⟨true⟩ id opts).query
        = (MarketplaceService.ListPlanAccountsForPlan ⟨false⟩ id opts).query ∧
      (MarketplaceService.GetPlanAccountForAccount ⟨true⟩ id).query
        = (MarketplaceService.GetPlanAccountForAccount ⟨false⟩ id).query ∧
      (MarketplaceService.ListMarketplacePurchasesForUser ⟨true⟩ opts).query
        = (MarketplaceService.ListMarketplacePurchasesForUser ⟨false⟩ opts).query) ∧
    ((MarketplaceService.ListPlans ⟨true⟩ opts).shape
        = (MarketplaceService.ListPlans ⟨false⟩ opts).shape ∧
      (MarketplaceService.ListPlanAccountsForPlan ⟨true⟩ id opts).shape
        = (MarketplaceService.ListPlanAccountsForPlan ⟨false⟩ id opts).shape ∧
      (MarketplaceService.GetPlanAccountForAccount ⟨true⟩ id).shape
        = (MarketplaceService.GetPlanAccountForAccount ⟨false⟩ id).shape ∧
      (MarketplaceService.ListMarketplacePurchasesForUser ⟨true⟩ opts).shape
        = (MarketplaceService.ListMarketplacePurchasesForUser ⟨false⟩ opts).shape) ∧
    ("/" ++ (MarketplaceService.ListPlanAccountsForPlan ⟨true⟩ 1 opts).path
        = "/marketplace_listing/stubbed/plans/1/accounts" ∧
      "/" ++ (MarketplaceService.GetPlanAccountForAccount ⟨false⟩ 1).path
        = "/marketplace_listing/accounts/1" ∧
      (MarketplaceService.ListPlans ⟨true⟩ (some ⟨1, 2⟩)).query
        = [("page", "1"), ("per_page", "2")]) := by
  refine ⟨⟨?_, ?_, ?_, ?_⟩, ⟨?_, ?_, ?_, ?_⟩, ⟨rfl, rfl, rfl, rfl⟩, ⟨rfl, rfl, rfl, rfl⟩,
    ⟨rfl, rfl, rfl, rfl⟩, ⟨rfl, by decide, by decide⟩⟩ <;>
  · apply String.ext
    simp [MarketplaceService.ListPlans, MarketplaceService.ListPlanAccountsForPlan,
      MarketplaceService.GetPlanAccountForAccount,
      MarketplaceService.ListMarketplacePurchasesForUser, MarketplaceService.marketplaceURI,
      Sprintf, Sprintf.go, String.data_append]

end Theorems

end GoGithub
